import Mathlib

/-!
# Verification of the attendance-system scan processor

Shallow embedding of `src/attendance_system/python/attendance.py`.

Modelling conventions:
* Times are natural numbers counting whole seconds.  An absolute timestamp
  `t : Nat` denotes `t` seconds since an epoch midnight; `t / 86400` is the
  calendar day and `t % 86400` the time of day.  The Python code carries
  microsecond-resolution `datetime` values, but every constant it compares
  against (06:00, 16:00, 08:30, the 0.3-minute cooldown) is a whole number of
  seconds, so the second-resolution model preserves every threshold
  comparison exactly.
* The MySQL tables `Staff`, `sign` and `onsite` are lists of rows; the
  auto-increment primary key of `onsite` is modelled by `next_id`.
* The two Google-Sheet projections are modelled by the data the script
  actually writes per scan: for the monthly sheet, each staff row's cell in
  today's column; for the daily sheet, each staff row's `(Status, Time)`
  pair.  The `staff_name_to_*_row_index` caches built by sheet
  initialization have exactly the sheet row names as keys, so "name present
  in the cache" is modelled as "name is a key of the sheet".
* Fallible external writes (the `sign`-table INSERT inside
  `get_assigned_name_and_tag`, the `onsite` INSERT/UPDATE, the sweep's
  transaction commit) are modelled by Boolean success parameters; on failure
  the Python code rolls the connection back, which leaves the modelled table
  state unchanged.
-/

/-- `SIGNIN_ALLOWED_TIME = time(6, 0)`, as seconds of day. -/
def SIGNIN_ALLOWED_TIME : Nat := 6 * 3600

/-- `CUTOFF_TIME = time(16, 0)`, as seconds of day. -/
def CUTOFF_TIME : Nat := 16 * 3600

/-- `LATE_SIGNIN_TIME = time(8, 30)`, as seconds of day. -/
def LATE_SIGNIN_TIME : Nat := 8 * 3600 + 30 * 60

/-- `COOLDOWN_MINUTES = 0.3` minutes, i.e. exactly 18 seconds. -/
def COOLDOWN_SECONDS : Nat := 18

/-- Seconds in a calendar day. -/
def secondsPerDay : Nat := 86400

/-- One row of the external `Staff` table: `{tag_id, Name, department}`. -/
structure StaffRow where
  tag_id : String
  name : String
  department : String
deriving DecidableEq, Repr

/-- One row of the `onsite` ledger:
`{onsite_id, tag_id, scan_date, Active, sign_out_date}`. -/
structure OnsiteRecord where
  onsite_id : Nat
  tag_id : String
  scan_date : Nat
  active : Bool
  sign_out_date : Option Nat
deriving DecidableEq, Repr

/-- The relational store: `Staff` (external), `sign` (tag → name binding)
and the `onsite` ledger with its auto-increment counter. -/
structure DBState where
  staff : List StaffRow
  sign : List (String × String)
  onsite : List OnsiteRecord
  next_id : Nat
deriving DecidableEq, Repr

/-- Monthly sheet, restricted to today's column: staff name ↦ cell text. -/
abbrev MonthlySheet := List (String × String)

/-- Daily sheet: staff name ↦ (Status, time-of-day of the last event). -/
abbrev DailySheet := List (String × (String × Nat))

/-- Whole mutable state the scan processor touches: the database, the
process-local `last_tap_times` cooldown registry, and the two sheets. -/
structure ScanState where
  db : DBState
  last_tap_times : List (String × Nat)
  monthly : MonthlySheet
  daily : DailySheet
deriving DecidableEq, Repr

/-- `today_start = datetime.combine(now.date(), datetime.min.time())`:
midnight of day `d` as an absolute timestamp. -/
def todayStart (d : Nat) : Nat := d * secondsPerDay

/-- `today_end = datetime.combine(now.date(), datetime.max.time())`:
last second of day `d` as an absolute timestamp. -/
def todayEnd (d : Nat) : Nat := d * secondsPerDay + (secondsPerDay - 1)

/-- The SQL predicate `scan_date BETWEEN today_start AND today_end`
(both bounds inclusive). -/
def withinDay (r : OnsiteRecord) (d : Nat) : Bool :=
  decide (todayStart d ≤ r.scan_date) && decide (r.scan_date ≤ todayEnd d)

/-- The rows matched by
`SELECT ... FROM onsite WHERE tag_id = %s AND scan_date BETWEEN %s AND %s`. -/
def todaysRecords (onsite : List OnsiteRecord) (tag : String) (d : Nat) :
    List OnsiteRecord :=
  onsite.filter (fun r => r.tag_id == tag && withinDay r d)

/-- `ORDER BY scan_date DESC LIMIT 1`: a row of maximal `scan_date`.
SQL leaves the order of ties unspecified; the model keeps the first
maximal row. -/
def latestIn (l : List OnsiteRecord) : Option OnsiteRecord :=
  l.foldl
    (fun acc r =>
      match acc with
      | none => some r
      | some m => if m.scan_date < r.scan_date then some r else some m)
    none

/-- `get_current_onsite_status`: the `(Active, onsite_id)` of the latest
`onsite` row for the tag within today's window, if any. -/
def get_current_onsite_status (onsite : List OnsiteRecord) (tag : String)
    (d : Nat) : Option (Bool × Nat) :=
  (latestIn (todaysRecords onsite tag d)).map (fun r => (r.active, r.onsite_id))

/-- `add_onsite_record_to_db` (the successful path): INSERT a new row with
`Active = 1` and `sign_out_date = NULL`, then commit. -/
def add_onsite_record_to_db (db : DBState) (tag : String) (now : Nat) :
    DBState :=
  { db with
    onsite := db.onsite ++ [⟨db.next_id, tag, now, true, none⟩]
    next_id := db.next_id + 1 }

/-- The row mutation a sign-out performs:
`SET Active = 0, sign_out_date = now`. -/
def closeRec (now : Nat) (r : OnsiteRecord) : OnsiteRecord :=
  { r with active := false, sign_out_date := some now }

/-- `update_onsite_record_in_db` (the successful path):
`UPDATE onsite SET Active = 0, sign_out_date = now WHERE onsite_id = %s`,
then commit. -/
def update_onsite_record_in_db (db : DBState) (oid : Nat) (now : Nat) :
    DBState :=
  { db with
    onsite := db.onsite.map (fun r =>
      if r.onsite_id = oid then closeRec now r else r) }

/-- `get_staff_name_by_tag_id`: `SELECT Name FROM Staff WHERE tag_id = %s`. -/
def get_staff_name_by_tag_id (staff : List StaffRow) (tag : String) :
    Option String :=
  (staff.find? (fun s => s.tag_id == tag)).map (fun s => s.name)

/-- `get_assigned_name_and_tag`: resolve a tag via the `sign` table, with a
consistency check against `Staff`; if absent from `sign` but present in
`Staff`, INSERT the binding into `sign` and commit (`signInsertOk` models
whether that INSERT succeeds; on failure the connection is rolled back).
Returns the resolved name (or `none`) and the possibly-extended database. -/
def get_assigned_name_and_tag (db : DBState) (tag : String)
    (signInsertOk : Bool) : Option String × DBState :=
  match List.lookup tag db.sign with
  | some assigned_name =>
      if db.staff.any (fun s => s.tag_id == tag) = true then (some assigned_name, db)
      else (none, db)
  | none =>
      match db.staff.find? (fun s => s.tag_id == tag) with
      | some srow =>
          if signInsertOk then
            (some srow.name, { db with sign := db.sign ++ [(tag, srow.name)] })
          else (none, db)
      | none => (none, db)

/-- `is_after_cutoff`: `current_time > CUTOFF_TIME`. -/
def is_after_cutoff (current_time : Nat) : Bool :=
  decide (CUTOFF_TIME < current_time)

/-- `is_signin_allowed`: `SIGNIN_ALLOWED_TIME <= current_time <= CUTOFF_TIME`. -/
def is_signin_allowed (current_time : Nat) : Bool :=
  decide (SIGNIN_ALLOWED_TIME ≤ current_time) && decide (current_time ≤ CUTOFF_TIME)

/-- `check_cooldown`: if the registry holds a last tap for the name and less
than `COOLDOWN_MINUTES` have elapsed since it, deny (`false`); otherwise
allow.  Elapsed time is a signed difference, as with Python `timedelta`. -/
def check_cooldown (last_tap_times : List (String × Nat)) (user_name : String)
    (now : Nat) : Bool :=
  match List.lookup user_name last_tap_times with
  | some last =>
      if (now : Int) - (last : Int) < (COOLDOWN_SECONDS : Int) then false
      else true
  | none => true

/-- The cell write a sign-in performs on the monthly sheet:
`"Present(LATE)"` when `now_time > LATE_SIGNIN_TIME`, else `"Present"`,
into the staff row's cell of today's column. -/
def monthlyPresentWrite (sheet : MonthlySheet) (assigned_name : String)
    (now_time : Nat) : MonthlySheet :=
  sheet.map (fun p =>
    if p.1 = assigned_name then
      (p.1, if LATE_SIGNIN_TIME < now_time then "Present(LATE)" else "Present")
    else p)

/-- `update_monthly_sheet_status`: on `current_db_status_active = 1`
(just signed IN) perform the Present write; on `0` (just signed OUT) or any
other value, leave the sheet untouched.  A name missing from the row-index
cache is logged and skipped. -/
def update_monthly_sheet_status (sheet : MonthlySheet) (assigned_name : String)
    (now_time : Nat) (current_db_status_active : Nat) : MonthlySheet :=
  match List.lookup assigned_name sheet with
  | none => sheet
  | some _ =>
      if current_db_status_active = 1 then
        monthlyPresentWrite sheet assigned_name now_time
      else sheet

/-- `update_daily_sheet_row`: set the staff row's Status and Time cells; a
name missing from the row-index cache is logged and skipped. -/
def update_daily_sheet_row (sheet : DailySheet) (user_name new_status : String)
    (current_time : Nat) : DailySheet :=
  match List.lookup user_name sheet with
  | none => sheet
  | some _ =>
      sheet.map (fun p =>
        if p.1 = user_name then (p.1, (new_status, current_time)) else p)

/-- `on_tag_scan`: process one RFID scan at absolute time `now`.
`signInsertOk` models the lazy `sign`-table INSERT succeeding and
`onsiteWriteOk` the `onsite` INSERT/UPDATE succeeding.  Returns the
function's Boolean result and the state after the call. -/
def on_tag_scan (tag_id : String) (now : Nat) (signInsertOk onsiteWriteOk : Bool)
    (st : ScanState) : Bool × ScanState :=
  let current_time := now % secondsPerDay
  let d := now / secondsPerDay
  match get_assigned_name_and_tag st.db tag_id signInsertOk with
  | (none, db') => (false, { st with db := db' })
  | (some assigned_name, db') =>
      if ¬ check_cooldown st.last_tap_times assigned_name now then
        (false, { st with db := db' })
      else if ¬ is_signin_allowed current_time then
        (false, { st with db := db' })
      else
        -- `last_tap_times[assigned_name] = now` (before the ledger write)
        let st1 : ScanState :=
          { st with
            db := db'
            last_tap_times := (assigned_name, now) :: st.last_tap_times }
        match get_current_onsite_status st1.db.onsite tag_id d with
        | some (true, onsite_record_id) =>
            -- currently IN: process SIGN-OUT
            if onsiteWriteOk then
              let st2 :=
                { st1 with db := update_onsite_record_in_db st1.db onsite_record_id now }
              let st3 :=
                { st2 with
                  monthly := update_monthly_sheet_status st2.monthly assigned_name
                    current_time 0 }
              let st4 :=
                { st3 with
                  daily := update_daily_sheet_row st3.daily assigned_name "OUT"
                    current_time }
              (true, st4)
            else (false, st1)
        | _ =>
            -- currently OUT or no record today: process SIGN-IN
            if onsiteWriteOk then
              let st2 := { st1 with db := add_onsite_record_to_db st1.db tag_id now }
              let st3 :=
                { st2 with
                  monthly := update_monthly_sheet_status st2.monthly assigned_name
                    current_time 1 }
              let st4 :=
                { st3 with
                  daily := update_daily_sheet_row st3.daily assigned_name "IN"
                    current_time }
              (true, st4)
            else (false, st1)

/-- One iteration of the sweep's `for user_record in users_to_mark_out`
loop: resolve the staff name from `Staff` (skipping the row entirely when
it does not resolve, "Skipping DB update."), stage the row's UPDATE in the
open transaction, and stage a daily-sheet update when the resolved name is
in the daily row cache. -/
def sweepStep (now : Nat) (daily : DailySheet)
    (acc : DBState × List String) (r : OnsiteRecord) : DBState × List String :=
  match get_staff_name_by_tag_id acc.1.staff r.tag_id with
  | none => acc
  | some assigned_name =>
      let db' := update_onsite_record_in_db acc.1 r.onsite_id now
      match List.lookup assigned_name daily with
      | some _ => (db', acc.2 ++ [assigned_name])
      | none => (db', acc.2)

/-- `auto_mark_out_all_users`: past the cutoff, read all still-active rows of
today, and inside one transaction force each row whose tag resolves in
`Staff` to `Active = 0, sign_out_date = now`, staging a daily-sheet
`"OUT"`/time update for each resolved name present in the daily row cache;
commit, then apply the staged sheet batch.  `txOk = false` models a database
error anywhere in the batch: the transaction is rolled back and the sheet
batch is never reached. -/
def auto_mark_out_all_users (now : Nat) (txOk : Bool) (st : ScanState) :
    ScanState :=
  let current_time := now % secondsPerDay
  if is_after_cutoff current_time then
    let d := now / secondsPerDay
    let users_to_mark_out := st.db.onsite.filter (fun r => r.active && withinDay r d)
    if users_to_mark_out.isEmpty then st
    else if txOk then
      let folded := users_to_mark_out.foldl (sweepStep now st.daily) (st.db, [])
      { st with
        db := folded.1
        daily := st.daily.map (fun p =>
          if p.1 ∈ folded.2 then (p.1, ("OUT", current_time)) else p) }
    else st
  else st

/-! ## Process exit-code model (`__main__`)

Python control flow of the script's entry point, faithful to `SystemExit`
semantics: `sys.exit(c)` raises `SystemExit(c)`; the `except` clauses catch
only `Exception`-derived errors (never `SystemExit`); and a `sys.exit(0)`
executed inside the `finally` block raises a fresh `SystemExit(0)` that
replaces whatever exception was in flight. -/

/-- How control leaves a Python block. -/
inductive PyOutcome where
  | normal : PyOutcome
  | sysExit : Nat → PyOutcome
  | raised : PyOutcome
deriving DecidableEq, Repr

/-- The external conditions the entry point branches on. -/
structure Env where
  config_ok : Bool          -- all five environment variables present
  lockdir_ok : Bool         -- lock-file directory creatable
  sheets_auth_ok : Bool     -- Google Sheets authentication succeeds
  tag_input : String        -- the stripped tag argument / prompt input
  lock_ok : Bool            -- acquire_lock returns a descriptor
  db_conn_ok : Bool         -- get_db_connection returns a connection
  date_col_present : Bool   -- today's date column found in monthly headers
  scan_ok : Bool            -- on_tag_scan's Boolean result
deriving DecidableEq, Repr

/-- The body of the `try` block in `__main__`: the outcome with which
control leaves it.  `sys.exit(1)` on lock failure and on connection failure,
`sys.exit(1)` inside sheet setup when today's date column is missing,
`sys.exit(0)` on the `exit` command; a scan (successful or policy-rejected)
and the sweep fall through normally. -/
def main_try (e : Env) : PyOutcome :=
  if ¬ e.lock_ok then .sysExit 1
  else if ¬ e.db_conn_ok then .sysExit 1
  else if ¬ e.date_col_present then .sysExit 1
  else if e.tag_input.toLower == "exit" then .sysExit 0
  else .normal

/-- The `except Error / GSpreadException / Exception` clauses: they log and
fall through, but never catch a `SystemExit`. -/
def main_except (o : PyOutcome) : PyOutcome :=
  match o with
  | .raised => .normal
  | o => o

/-- The `finally` block: close the connection, release the lock, then
`sys.exit(0)` — raising inside a `finally` discards the in-flight outcome,
so the block's result is `SystemExit(0)` no matter what was pending. -/
def main_finally (o : PyOutcome) : PyOutcome :=
  match o with
  | _ => .sysExit 0

/-- The process exit code of one invocation.  The module-level checks
(environment variables, lock directory, Sheets authentication) and the
empty-tag check run before the `try` block, so their `sys.exit(1)` calls
take effect; everything inside the `try` is clobbered by the `finally`. -/
def process_exit_code (e : Env) : Nat :=
  if ¬ e.config_ok then 1
  else if ¬ e.lockdir_ok then 1
  else if ¬ e.sheets_auth_ok then 1
  else if e.tag_input == "" then 1
  else
    match main_finally (main_except (main_try e)) with
    | .sysExit c => c
    | _ => 0

/-- Concrete states for the witness theorems: one staff member `Alice` with
tag `T1`, already bound in `sign`, present in both sheets. -/
def demoState : ScanState :=
  { db := { staff := [⟨"T1", "Alice", "Eng"⟩], sign := [("T1", "Alice")],
            onsite := [], next_id := 1 }
    last_tap_times := []
    monthly := [("Alice", "Absent")]
    daily := [("Alice", ("OUT", 0))] }

/-- A staff member `Bob` with tag `T2` who has no `sign` binding yet. -/
def demoState2 : ScanState :=
  { db := { staff := [⟨"T2", "Bob", "Ops"⟩], sign := [],
            onsite := [], next_id := 1 }
    last_tap_times := []
    monthly := [("Bob", "Absent")]
    daily := [("Bob", ("OUT", 0))] }

/-! ## Sweep characterization (for C7) -/

/-- The `onsite_id`s the sweep force-closes: the scanned rows whose tag
resolves in `Staff`. -/
def sweepCloseIds (staff : List StaffRow) (users : List OnsiteRecord) :
    List Nat :=
  (users.filter (fun u => (get_staff_name_by_tag_id staff u.tag_id).isSome)).map
    (fun u => u.onsite_id)

/-- The staff names the sweep stages daily-sheet updates for: resolved
names that are keys of the daily sheet. -/
def sweepStagedNames (staff : List StaffRow) (daily : DailySheet)
    (users : List OnsiteRecord) : List String :=
  users.filterMap (fun u =>
    match get_staff_name_by_tag_id staff u.tag_id with
    | some n =>
        match List.lookup n daily with
        | some _ => some n
        | none => none
    | none => none)

/-- A state with one still-active record of today whose tag `T9` does NOT
resolve in `Staff` (a dangling ledger row), plus Alice's resolvable active
record. -/
def c7State : ScanState :=
  { db := { staff := [⟨"T1", "Alice", "Eng"⟩], sign := [("T1", "Alice")],
            onsite := [⟨1, "T1", 36000, true, none⟩, ⟨2, "T9", 37000, true, none⟩],
            next_id := 3 }
    last_tap_times := []
    monthly := [("Alice", "Present")]
    daily := [("Alice", ("IN", 36000))] }

/-- Iterated scans of one tag at the given times, with every external write
succeeding; collects each scan's Boolean result. -/
def runScans (tag : String) (times : List Nat) (st : ScanState) :
    List Bool × ScanState :=
  match times with
  | [] => ([], st)
  | t :: ts =>
      let r := on_tag_scan tag t true true st
      let rest := runScans tag ts r.2
      (r.1 :: rest.1, rest.2)

/-- Mid-run invariant for a sequence of accepted scans of one tag on one
day, after `k` accepted scans whose latest time was `tl`: the identity
resolves through `sign`/`Staff`, the cooldown registry holds the last
accepted time, the `onsite` primary keys are fresh and distinct, and
today's records for the tag are strictly date-sorted with every row but the
last closed (with a sign-out timestamp) and the last row's `active` flag
encoding the parity of `k`. -/
structure AltInv (tag name : String) (d k tl : Nat) (st : ScanState) : Prop where
  hsign : List.lookup tag st.db.sign = some name
  hstaff : st.db.staff.any (fun s => s.tag_id == tag) = true
  htap : List.lookup name st.last_tap_times = if k = 0 then none else some tl
  hfresh : ∀ r ∈ st.db.onsite, r.onsite_id < st.db.next_id
  hnodup : (st.db.onsite.map (fun r => r.onsite_id)).Nodup
  hlen : (todaysRecords st.db.onsite tag d).length = (k + 1) / 2
  hchain : (todaysRecords st.db.onsite tag d).Chain'
    (fun a b => a.scan_date < b.scan_date)
  hle : ∀ r ∈ todaysRecords st.db.onsite tag d, r.scan_date ≤ tl
  hact : ∀ r ∈ (todaysRecords st.db.onsite tag d).dropLast, r.active = false
  hlast : ∀ r, (todaysRecords st.db.onsite tag d).getLast? = some r →
    r.active = decide (k % 2 = 1)
  hclosed : ∀ r ∈ todaysRecords st.db.onsite tag d, r.active = false →
    r.sign_out_date ≠ none

/-! ## Generic association-list helpers -/

/-- Looking a key up past a prefix in which it does not occur. -/
theorem lookup_append_of_none {α β : Type} [BEq α] (a : α) (l l' : List (α × β))
    (h : List.lookup a l = none) : List.lookup a (l ++ l') = List.lookup a l' := by
  induction l with
  | nil => rfl
  | cons p t ih =>
      simp only [List.lookup, List.cons_append] at h ⊢
      cases hb : (a == p.1) with
      | true => simp [hb] at h
      | false => simp only [hb] at h ⊢; exact ih h

theorem lookup_map_set {β : Type} (l : List (String × β)) (name : String) (v : β) :
    List.lookup name (l.map fun p => if p.1 = name then (p.1, v) else p) =
      (List.lookup name l).map fun _ => v := by
  induction l with
  | nil => rfl
  | cons p t ih =>
      rw [List.map_cons]
      by_cases h : p.1 = name
      · rw [if_pos h]
        have hb : (name == p.1) = true := by rw [beq_iff_eq]; exact h.symm
        rw [List.lookup, List.lookup, hb]
        rfl
      · rw [if_neg h]
        have hb : (name == p.1) = false := by
          rw [beq_eq_false_iff_ne]; exact fun hx => h hx.symm
        rw [List.lookup, List.lookup, hb, ih]

theorem lookup_map_set_ne {β : Type} (l : List (String × β)) (name n : String) (v : β)
    (h : n ≠ name) :
    List.lookup n (l.map fun p => if p.1 = name then (p.1, v) else p) =
      List.lookup n l := by
  induction l with
  | nil => rfl
  | cons p t ih =>
      rw [List.map_cons]
      by_cases hp : p.1 = name
      · have hb : (n == p.1) = false := by
          rw [beq_eq_false_iff_ne, hp]; exact h
        rw [if_pos hp, List.lookup, List.lookup, hb]
        exact ih
      · rw [if_neg hp, List.lookup, List.lookup]
        cases hb : (n == p.1) with
        | true => rfl
        | false => exact ih

theorem lookup_map_setmem {β : Type} (l : List (String × β)) (names : List String)
    (v : β) (n : String) :
    List.lookup n (l.map fun p => if p.1 ∈ names then (p.1, v) else p) =
      (if n ∈ names then (List.lookup n l).map fun _ => v
       else List.lookup n l) := by
  induction l with
  | nil => by_cases h : n ∈ names <;> simp [h]
  | cons p t ih =>
      rw [List.map_cons]
      by_cases hp : p.1 ∈ names
      · rw [if_pos hp]
        by_cases he : n = p.1
        · have hb : (n == p.1) = true := by rw [beq_iff_eq]; exact he
          rw [List.lookup, List.lookup, hb, if_pos (he ▸ hp)]
          rfl
        · have hb : (n == p.1) = false := by rw [beq_eq_false_iff_ne]; exact he
          rw [List.lookup, List.lookup, hb, ih]
      · rw [if_neg hp]
        by_cases he : n = p.1
        · have hb : (n == p.1) = true := by rw [beq_iff_eq]; exact he
          rw [List.lookup, List.lookup, hb, if_neg (he ▸ hp)]
        · have hb : (n == p.1) = false := by rw [beq_eq_false_iff_ne]; exact he
          rw [List.lookup, List.lookup, hb, ih]

/-! ## Frame and case lemmas for the scan processor -/

/-- Identity resolution touches only the `sign` table. -/
theorem get_assigned_frame (db : DBState) (tag : String) (sOk : Bool) :
    (get_assigned_name_and_tag db tag sOk).2.onsite = db.onsite ∧
    (get_assigned_name_and_tag db tag sOk).2.staff = db.staff ∧
    (get_assigned_name_and_tag db tag sOk).2.next_id = db.next_id := by
  unfold get_assigned_name_and_tag
  cases List.lookup tag db.sign with
  | some n =>
      by_cases h : db.staff.any (fun s => s.tag_id == tag) = true <;> simp [h]
  | none =>
      cases db.staff.find? (fun s => s.tag_id == tag) with
      | some srow => cases sOk <;> simp
      | none => simp

/-- `on_tag_scan` when identity resolution fails. -/
theorem on_tag_scan_unresolved (st : ScanState) (tag : String) (now : Nat)
    (sOk dOk : Bool) (db' : DBState)
    (hres : get_assigned_name_and_tag st.db tag sOk = (none, db')) :
    on_tag_scan tag now sOk dOk st = (false, { st with db := db' }) := by
  unfold on_tag_scan
  rw [hres]

/-- `on_tag_scan` when the cooldown or time-window gate rejects. -/
theorem on_tag_scan_gate_rejected (st : ScanState) (tag name : String) (now : Nat)
    (sOk dOk : Bool) (db' : DBState)
    (hres : get_assigned_name_and_tag st.db tag sOk = (some name, db'))
    (hrej : check_cooldown st.last_tap_times name now = false ∨
            is_signin_allowed (now % secondsPerDay) = false) :
    on_tag_scan tag now sOk dOk st = (false, { st with db := db' }) := by
  unfold on_tag_scan
  rw [hres]
  rcases hrej with h | h
  · simp [h]
  · cases hc : check_cooldown st.last_tap_times name now <;> simp [hc, h]

/-- `on_tag_scan` on an accepted sign-out (latest record today is active). -/
theorem on_tag_scan_signout (st : ScanState) (tag name : String) (now : Nat)
    (sOk : Bool) (db' : DBState) (oid : Nat)
    (hres : get_assigned_name_and_tag st.db tag sOk = (some name, db'))
    (hcool : check_cooldown st.last_tap_times name now = true)
    (hwin : is_signin_allowed (now % secondsPerDay) = true)
    (hstat : get_current_onsite_status db'.onsite tag (now / secondsPerDay) =
      some (true, oid)) :
    on_tag_scan tag now sOk true st =
      (true,
       { db := update_onsite_record_in_db db' oid now
         last_tap_times := (name, now) :: st.last_tap_times
         monthly := update_monthly_sheet_status st.monthly name (now % secondsPerDay) 0
         daily := update_daily_sheet_row st.daily name "OUT" (now % secondsPerDay) }) := by
  unfold on_tag_scan
  rw [hres]
  simp [hcool, hwin, hstat]

/-- `on_tag_scan` on an accepted sign-in (no record today, or latest inactive). -/
theorem on_tag_scan_signin (st : ScanState) (tag name : String) (now : Nat)
    (sOk : Bool) (db' : DBState)
    (hres : get_assigned_name_and_tag st.db tag sOk = (some name, db'))
    (hcool : check_cooldown st.last_tap_times name now = true)
    (hwin : is_signin_allowed (now % secondsPerDay) = true)
    (hstat : ∀ oid, get_current_onsite_status db'.onsite tag (now / secondsPerDay) ≠
      some (true, oid)) :
    on_tag_scan tag now sOk true st =
      (true,
       { db := add_onsite_record_to_db db' tag now
         last_tap_times := (name, now) :: st.last_tap_times
         monthly := update_monthly_sheet_status st.monthly name (now % secondsPerDay) 1
         daily := update_daily_sheet_row st.daily name "IN" (now % secondsPerDay) }) := by
  unfold on_tag_scan
  rw [hres]
  rcases h0 : get_current_onsite_status db'.onsite tag (now / secondsPerDay) with
    _ | ⟨b, oid⟩
  · simp [hcool, hwin, h0]
  · cases b with
    | true => exact absurd h0 (hstat oid)
    | false => simp [hcool, hwin, h0]

/-- `on_tag_scan` when every gate passes but the ledger write fails: the
scan is reported failed, the cooldown registry has already been updated,
and nothing else changes. -/
theorem on_tag_scan_writefail (st : ScanState) (tag name : String) (now : Nat)
    (sOk : Bool) (db' : DBState)
    (hres : get_assigned_name_and_tag st.db tag sOk = (some name, db'))
    (hcool : check_cooldown st.last_tap_times name now = true)
    (hwin : is_signin_allowed (now % secondsPerDay) = true) :
    on_tag_scan tag now sOk false st =
      (false,
       { st with
         db := db'
         last_tap_times := (name, now) :: st.last_tap_times }) := by
  unfold on_tag_scan
  rw [hres]
  rcases h0 : get_current_onsite_status db'.onsite tag (now / secondsPerDay) with
    _ | ⟨b, oid⟩
  · simp [hcool, hwin, h0]
  · cases b <;> simp [hcool, hwin, h0]

/-! ## Auxiliary facts about the sheet writers -/

/-- A sign-out (`current_db_status_active = 0`) never touches the monthly
sheet. -/
theorem update_monthly_status_zero (sheet : MonthlySheet) (name : String)
    (t : Nat) : update_monthly_sheet_status sheet name t 0 = sheet := by
  unfold update_monthly_sheet_status
  cases List.lookup name sheet <;> simp

/-- A sign-in writes the Present value into the staff row's cell (when the
row exists in the cached index). -/
theorem update_monthly_status_one_lookup (sheet : MonthlySheet) (name : String)
    (t : Nat) (h : List.lookup name sheet ≠ none) :
    List.lookup name (update_monthly_sheet_status sheet name t 1) =
      some (if LATE_SIGNIN_TIME < t then "Present(LATE)" else "Present") := by
  unfold update_monthly_sheet_status
  rcases hl : List.lookup name sheet with _ | v
  · exact absurd hl h
  · show List.lookup name (monthlyPresentWrite sheet name t) = _
    unfold monthlyPresentWrite
    rw [lookup_map_set, hl]
    rfl

/-- Any single cell after a sign-in write: unchanged, or the Present value. -/
theorem update_monthly_status_one_cases (sheet : MonthlySheet) (name : String)
    (t : Nat) (n : String) :
    List.lookup n (update_monthly_sheet_status sheet name t 1) =
      List.lookup n sheet ∨
    List.lookup n (update_monthly_sheet_status sheet name t 1) =
      some (if LATE_SIGNIN_TIME < t then "Present(LATE)" else "Present") := by
  unfold update_monthly_sheet_status
  rcases hl : List.lookup name sheet with _ | v
  · left; rfl
  · by_cases hn : n = name
    · subst hn
      right
      show List.lookup n (monthlyPresentWrite sheet n t) = _
      unfold monthlyPresentWrite
      rw [lookup_map_set, hl]
      rfl
    · left
      show List.lookup n (monthlyPresentWrite sheet name t) = _
      unfold monthlyPresentWrite
      exact lookup_map_set_ne sheet name n _ hn

/-- Reduction of `check_cooldown` when the registry has an entry. -/
theorem check_cooldown_eq_of_lookup (l : List (String × Nat)) (name : String)
    (now last : Nat) (h : List.lookup name l = some last) :
    check_cooldown l name now =
      if (now : Int) - (last : Int) < (COOLDOWN_SECONDS : Int) then false
      else true := by
  unfold check_cooldown
  rw [h]

/-- Reduction of `check_cooldown` when the registry has no entry. -/
theorem check_cooldown_eq_of_none (l : List (String × Nat)) (name : String)
    (now : Nat) (h : List.lookup name l = none) :
    check_cooldown l name now = true := by
  unfold check_cooldown
  rw [h]

/-! ## Claim C4 -/

/-- C4: for an identity with a recorded prior tap, the cooldown gate rejects
a scan iff strictly less than `COOLDOWN_MINUTES` (18 s) have elapsed since
that tap; a scan at exactly the cooldown or later passes, and an identity
with no recorded tap always passes. -/
theorem cooldown_gate_iff (l : List (String × Nat)) (name : String) (now : Nat) :
    (check_cooldown l name now = false ↔
      ∃ last, List.lookup name l = some last ∧
        (now : Int) - (last : Int) < (COOLDOWN_SECONDS : Int)) ∧
    (∀ last, List.lookup name l = some last →
      (COOLDOWN_SECONDS : Int) ≤ (now : Int) - (last : Int) →
      check_cooldown l name now = true) ∧
    (List.lookup name l = none → check_cooldown l name now = true) := by
  rcases h : List.lookup name l with _ | last
  · rw [check_cooldown_eq_of_none l name now h]
    simp [h]
  · rw [check_cooldown_eq_of_lookup l name now last h]
    by_cases hlt : (now : Int) - (last : Int) < (COOLDOWN_SECONDS : Int)
    · rw [if_pos hlt]
      refine ⟨⟨fun _ => ⟨last, rfl, hlt⟩, fun _ => rfl⟩, ?_, ?_⟩
      · intro l' hl' hge
        injection hl' with he
        subst he
        exact absurd hlt (not_lt.mpr hge)
      · intro hn; cases hn
    · rw [if_neg hlt]
      refine ⟨⟨fun ht => absurd ht (by simp), ?_⟩, fun _ _ _ => rfl, fun _ => rfl⟩
      rintro ⟨l', hl', hlt'⟩
      injection hl' with he
      subst he
      exact absurd hlt' hlt

/-- Witness for C4 at concrete inputs: a tap 17 s after the last is
rejected, a tap exactly 18 s after passes, and an unknown identity passes. -/
theorem cooldown_gate_iff_witness :
    check_cooldown [("Alice", 100)] "Alice" 117 = false ∧
    check_cooldown [("Alice", 100)] "Alice" 118 = true ∧
    check_cooldown [] "Bob" 50 = true := by
  refine ⟨?_, ?_, ?_⟩
  · exact (cooldown_gate_iff [("Alice", 100)] "Alice" 117).1.mpr
      ⟨100, by decide, by decide⟩
  · exact (cooldown_gate_iff [("Alice", 100)] "Alice" 118).2.1 100 (by decide)
      (by decide)
  · exact (cooldown_gate_iff [] "Bob" 50).2.2 (by decide)

/-! ## Claim C5 -/

/-- C5: the time-window gate passes exactly on the closed interval
`[SIGNIN_ALLOWED_TIME, CUTOFF_TIME]`, and outside it the scan is rejected
with no onsite/sheet/registry mutation regardless of the ledger's current
state for the tag. -/
theorem time_window_gate :
    (∀ t, is_signin_allowed t = true ↔
      SIGNIN_ALLOWED_TIME ≤ t ∧ t ≤ CUTOFF_TIME) ∧
    (∀ st tag now sOk dOk,
      is_signin_allowed (now % secondsPerDay) = false →
      (on_tag_scan tag now sOk dOk st).1 = false ∧
      (on_tag_scan tag now sOk dOk st).2.db.onsite = st.db.onsite ∧
      (on_tag_scan tag now sOk dOk st).2.monthly = st.monthly ∧
      (on_tag_scan tag now sOk dOk st).2.daily = st.daily ∧
      (on_tag_scan tag now sOk dOk st).2.last_tap_times = st.last_tap_times) := by
  constructor
  · intro t
    unfold is_signin_allowed
    simp
  · intro st tag now sOk dOk hwin
    have hframe := (get_assigned_frame st.db tag sOk).1
    rcases hres : get_assigned_name_and_tag st.db tag sOk with ⟨nm, db'⟩
    rw [hres] at hframe
    cases nm with
    | none =>
        rw [on_tag_scan_unresolved st tag now sOk dOk db' hres]
        exact ⟨rfl, hframe, rfl, rfl, rfl⟩
    | some name =>
        rw [on_tag_scan_gate_rejected st tag name now sOk dOk db' hres (Or.inr hwin)]
        exact ⟨rfl, hframe, rfl, rfl, rfl⟩

/-- Witness for C5: 05:00 is outside the window even with a pending
sign-out (an active record in today's ledger), and the boundary values. -/
theorem time_window_gate_witness :
    is_signin_allowed 21600 = true ∧ is_signin_allowed 57600 = true ∧
    is_signin_allowed 18000 = false ∧
    (on_tag_scan "T1" 18000 true true demoState).1 = false ∧
    (on_tag_scan "T1" 18000 true true demoState).2.db.onsite =
      demoState.db.onsite := by
  have h := time_window_gate.2 demoState "T1" 18000 true true (by decide)
  exact ⟨(time_window_gate.1 21600).mpr (by decide),
         (time_window_gate.1 57600).mpr (by decide),
         by decide, h.1, h.2.1⟩

/-! ## Claim C8 -/

/-- C8: the sweep's ledger mutations are one transaction.  When it fails,
nothing changes at all: the ledger is rolled back, and the daily-sheet
batch — which the code only reaches after a successful commit — is never
applied. -/
theorem sweep_transaction_atomic (now : Nat) (st : ScanState) :
    auto_mark_out_all_users now false st = st := by
  simp [auto_mark_out_all_users]

/-! ## Claim C9 -/

/-- C9: the claimed exit codes versus the model.  Missing configuration does
exit 1, and normal completion / rejected scans / the `exit` command exit 0;
but on lock-acquisition failure, database-connection failure and a missing
date column the `try` body raises `SystemExit(1)` (the code's intent) and
the `sys.exit(0)` in the `finally` block replaces it, so the process
actually exits 0. -/
theorem exit_code_clobbered :
    process_exit_code ⟨false, true, true, "1234", true, true, true, true⟩ = 1 ∧
    process_exit_code ⟨true, true, true, "1234", true, true, true, true⟩ = 0 ∧
    process_exit_code ⟨true, true, true, "1234", true, true, true, false⟩ = 0 ∧
    process_exit_code ⟨true, true, true, "EXIT", true, true, true, true⟩ = 0 ∧
    main_try ⟨true, true, true, "1234", false, true, true, true⟩ = .sysExit 1 ∧
    process_exit_code ⟨true, true, true, "1234", false, true, true, true⟩ = 0 ∧
    main_try ⟨true, true, true, "1234", true, false, true, true⟩ = .sysExit 1 ∧
    process_exit_code ⟨true, true, true, "1234", true, false, true, true⟩ = 0 ∧
    main_try ⟨true, true, true, "1234", true, true, false, true⟩ = .sysExit 1 ∧
    process_exit_code ⟨true, true, true, "1234", true, true, false, true⟩ = 0 := by
  decide

/-! ## Claim C10 -/

/-- C10: a tag present in `Staff` but not yet in the `Sign` table gets its
new Assignment row inserted and committed during identity resolution,
before the cooldown and time-window gates run; a scan those gates then
reject still leaves the new binding in the database. -/
theorem assignment_persists_on_rejection (st : ScanState) (tag : String)
    (now : Nat) (dOk : Bool) (srow : StaffRow)
    (hsign : List.lookup tag st.db.sign = none)
    (hstaff : st.db.staff.find? (fun s => s.tag_id == tag) = some srow)
    (hrej : check_cooldown st.last_tap_times srow.name now = false ∨
            is_signin_allowed (now % secondsPerDay) = false) :
    (on_tag_scan tag now true dOk st).1 = false ∧
    List.lookup tag (on_tag_scan tag now true dOk st).2.db.sign =
      some srow.name := by
  have hres : get_assigned_name_and_tag st.db tag true =
      (some srow.name, { st.db with sign := st.db.sign ++ [(tag, srow.name)] }) := by
    unfold get_assigned_name_and_tag
    rw [hsign, hstaff]
    rfl
  rw [on_tag_scan_gate_rejected st tag srow.name now true dOk _ hres hrej]
  refine ⟨rfl, ?_⟩
  show List.lookup tag (st.db.sign ++ [(tag, srow.name)]) = some srow.name
  rw [lookup_append_of_none tag _ _ hsign]
  simp [List.lookup]

/-- Witness for C10: Bob's tag `T2` is unknown to `sign`; a 05:00 scan is
rejected by the time window, yet the new binding `T2 ↦ Bob` persists. -/
theorem assignment_persists_on_rejection_witness :
    (on_tag_scan "T2" 18000 true true demoState2).1 = false ∧
    List.lookup "T2" (on_tag_scan "T2" 18000 true true demoState2).2.db.sign =
      some "Bob" := by
  exact assignment_persists_on_rejection demoState2 "T2" 18000 true
    ⟨"T2", "Bob", "Ops"⟩ (by decide) (by decide) (Or.inr (by decide))

/-! ## Claim C6 (corrected) -/

/-- C6 as stated is false: at 10:00, with all gates passing but the ledger
write failing, the scan is reported failed and yet the cooldown registry
HAS been updated with the tap. -/
theorem cooldown_registry_claim_cex :
    (on_tag_scan "T1" 36000 true false demoState).1 = false ∧
    (on_tag_scan "T1" 36000 true false demoState).2.last_tap_times ≠
      demoState.last_tap_times ∧
    List.lookup "Alice"
      (on_tag_scan "T1" 36000 true false demoState).2.last_tap_times =
      some 36000 := by
  decide

/-- C6 (amended): the registry entry for an identity is written exactly when
the identity, cooldown and time-window gates all pass — immediately before
the ledger write and regardless of whether that write succeeds; a scan
rejected by any gate leaves the registry unchanged. -/
theorem cooldown_registry_amended (st : ScanState) (tag : String) (now : Nat)
    (sOk dOk : Bool) :
    (∀ name db', get_assigned_name_and_tag st.db tag sOk = (some name, db') →
      check_cooldown st.last_tap_times name now = true →
      is_signin_allowed (now % secondsPerDay) = true →
      (on_tag_scan tag now sOk dOk st).2.last_tap_times =
        (name, now) :: st.last_tap_times) ∧
    (∀ db', get_assigned_name_and_tag st.db tag sOk = (none, db') →
      (on_tag_scan tag now sOk dOk st).2.last_tap_times = st.last_tap_times) ∧
    (∀ name db', get_assigned_name_and_tag st.db tag sOk = (some name, db') →
      (check_cooldown st.last_tap_times name now = false ∨
       is_signin_allowed (now % secondsPerDay) = false) →
      (on_tag_scan tag now sOk dOk st).2.last_tap_times = st.last_tap_times) := by
  refine ⟨?_, ?_, ?_⟩
  · intro name db' hres hcool hwin
    cases dOk with
    | false => rw [on_tag_scan_writefail st tag name now sOk db' hres hcool hwin]
    | true =>
        rcases hstat : get_current_onsite_status db'.onsite tag (now / secondsPerDay)
          with _ | ⟨b, oid⟩
        · rw [on_tag_scan_signin st tag name now sOk db' hres hcool hwin
            (by rw [hstat]; intro oid hc; cases hc)]
        · cases b with
          | true =>
              rw [on_tag_scan_signout st tag name now sOk db' oid hres hcool hwin hstat]
          | false =>
              rw [on_tag_scan_signin st tag name now sOk db' hres hcool hwin
                (by rw [hstat]; intro oid' hc; injection hc with hc'; injection hc' with hb; cases hb)]
  · intro db' hres
    rw [on_tag_scan_unresolved st tag now sOk dOk db' hres]
  · intro name db' hres hrej
    rw [on_tag_scan_gate_rejected st tag name now sOk dOk db' hres hrej]

/-- Witness for the amended C6: a failed-write scan at 10:00 still records
the tap, and a time-window-rejected scan at 05:00 leaves the registry
empty. -/
theorem cooldown_registry_amended_witness :
    (on_tag_scan "T1" 36000 true false demoState).2.last_tap_times =
      [("Alice", 36000)] ∧
    (on_tag_scan "T1" 18000 true true demoState).2.last_tap_times = [] := by
  constructor
  · exact (cooldown_registry_amended demoState "T1" 36000 true false).1
      "Alice" demoState.db (by decide) (by decide) (by decide)
  · exact (cooldown_registry_amended demoState "T1" 18000 true true).2.2
      "Alice" demoState.db (by decide) (Or.inr (by decide))

/-! ## Claim C2 -/

/-- C2: whenever any policy gate fails — identity resolution, cooldown, time
window — or the onsite write fails, `on_tag_scan` reports failure; and every
failed scan leaves the onsite ledger, the monthly sheet and the daily sheet
unchanged (a failed onsite write is rolled back; no sheet update is
attempted). -/
theorem rejected_scan_no_ledger_or_sheet_mutation (st : ScanState)
    (tag : String) (now : Nat) (sOk dOk : Bool) :
    (((get_assigned_name_and_tag st.db tag sOk).1 = none ∨
      (∃ name, (get_assigned_name_and_tag st.db tag sOk).1 = some name ∧
        (check_cooldown st.last_tap_times name now = false ∨
         is_signin_allowed (now % secondsPerDay) = false)) ∨
      dOk = false) →
      (on_tag_scan tag now sOk dOk st).1 = false) ∧
    ((on_tag_scan tag now sOk dOk st).1 = false →
      (on_tag_scan tag now sOk dOk st).2.db.onsite = st.db.onsite ∧
      (on_tag_scan tag now sOk dOk st).2.monthly = st.monthly ∧
      (on_tag_scan tag now sOk dOk st).2.daily = st.daily) := by
  have hframe := (get_assigned_frame st.db tag sOk).1
  rcases hres : get_assigned_name_and_tag st.db tag sOk with ⟨nm, db'⟩
  rw [hres] at hframe
  cases nm with
  | none =>
      rw [on_tag_scan_unresolved st tag now sOk dOk db' hres]
      exact ⟨fun _ => rfl, fun _ => ⟨hframe, rfl, rfl⟩⟩
  | some name =>
      cases hcool : check_cooldown st.last_tap_times name now with
      | false =>
          rw [on_tag_scan_gate_rejected st tag name now sOk dOk db' hres
            (Or.inl hcool)]
          exact ⟨fun _ => rfl, fun _ => ⟨hframe, rfl, rfl⟩⟩
      | true =>
          cases hwin : is_signin_allowed (now % secondsPerDay) with
          | false =>
              rw [on_tag_scan_gate_rejected st tag name now sOk dOk db' hres
                (Or.inr hwin)]
              exact ⟨fun _ => rfl, fun _ => ⟨hframe, rfl, rfl⟩⟩
          | true =>
              cases dOk with
              | false =>
                  rw [on_tag_scan_writefail st tag name now sOk db' hres hcool hwin]
                  exact ⟨fun _ => rfl, fun _ => ⟨hframe, rfl, rfl⟩⟩
              | true =>
                  have haccept : (on_tag_scan tag now sOk true st).1 = true := by
                    rcases hstat : get_current_onsite_status db'.onsite tag
                        (now / secondsPerDay) with _ | ⟨b, oid⟩
                    · rw [on_tag_scan_signin st tag name now sOk db' hres hcool hwin
                        (by rw [hstat]; intro oid hc; cases hc)]
                    · cases b with
                      | true =>
                          rw [on_tag_scan_signout st tag name now sOk db' oid hres
                            hcool hwin hstat]
                      | false =>
                          rw [on_tag_scan_signin st tag name now sOk db' hres hcool hwin
                            (by rw [hstat]; intro oid' hc; injection hc with hc'
                                injection hc' with hb; cases hb)]
                  constructor
                  · rintro (h | ⟨name', hn, hrej⟩ | h)
                    · simp at h
                    · simp only [Option.some.injEq] at hn
                      subst hn
                      rcases hrej with h | h
                      · rw [hcool] at h; cases h
                      · cases h
                    · cases h
                  · intro hfalse
                    rw [haccept] at hfalse
                    cases hfalse

/-- Witness for C2: the unknown tag `T99` is rejected at 10:00 with no
ledger or sheet mutation. -/
theorem rejected_scan_no_mutation_witness :
    (on_tag_scan "T99" 36000 true true demoState).1 = false ∧
    (on_tag_scan "T99" 36000 true true demoState).2.db.onsite =
      demoState.db.onsite ∧
    (on_tag_scan "T99" 36000 true true demoState).2.monthly =
      demoState.monthly ∧
    (on_tag_scan "T99" 36000 true true demoState).2.daily =
      demoState.daily := by
  have h := rejected_scan_no_ledger_or_sheet_mutation demoState "T99" 36000 true true
  have h1 := h.1 (Or.inl (by decide))
  exact ⟨h1, (h.2 h1).1, (h.2 h1).2.1, (h.2 h1).2.2⟩

/-! ## Claim C3 -/

/-- The end-of-day sweep never touches the monthly sheet. -/
theorem sweep_monthly_frame (now : Nat) (txOk : Bool) (st : ScanState) :
    (auto_mark_out_all_users now txOk st).monthly = st.monthly := by
  simp only [auto_mark_out_all_users]
  repeat' split
  all_goals rfl

/-- A scan either leaves the monthly sheet unchanged, or performs exactly
the sign-in Present write for the resolved name. -/
theorem scan_monthly_cases (st : ScanState) (tag : String) (now : Nat)
    (sOk dOk : Bool) :
    (on_tag_scan tag now sOk dOk st).2.monthly = st.monthly ∨
    ∃ name, (get_assigned_name_and_tag st.db tag sOk).1 = some name ∧
      (on_tag_scan tag now sOk dOk st).2.monthly =
        update_monthly_sheet_status st.monthly name (now % secondsPerDay) 1 := by
  rcases hres : get_assigned_name_and_tag st.db tag sOk with ⟨nm, db'⟩
  cases nm with
  | none =>
      left
      rw [on_tag_scan_unresolved st tag now sOk dOk db' hres]
  | some name =>
      cases hcool : check_cooldown st.last_tap_times name now with
      | false =>
          left
          rw [on_tag_scan_gate_rejected st tag name now sOk dOk db' hres (Or.inl hcool)]
      | true =>
          cases hwin : is_signin_allowed (now % secondsPerDay) with
          | false =>
              left
              rw [on_tag_scan_gate_rejected st tag name now sOk dOk db' hres
                (Or.inr hwin)]
          | true =>
              cases dOk with
              | false =>
                  left
                  rw [on_tag_scan_writefail st tag name now sOk db' hres hcool hwin]
              | true =>
                  rcases hstat : get_current_onsite_status db'.onsite tag
                      (now / secondsPerDay) with _ | ⟨b, oid⟩
                  · right
                    refine ⟨name, rfl, ?_⟩
                    rw [on_tag_scan_signin st tag name now sOk db' hres hcool hwin
                      (by rw [hstat]; intro oid hc; cases hc)]
                  · cases b with
                    | true =>
                        left
                        rw [on_tag_scan_signout st tag name now sOk db' oid hres
                          hcool hwin hstat]
                        exact update_monthly_status_zero st.monthly name _
                    | false =>
                        right
                        refine ⟨name, rfl, ?_⟩
                        rw [on_tag_scan_signin st tag name now sOk db' hres hcool hwin
                          (by rw [hstat]; intro oid' hc; injection hc with hc'
                              injection hc' with hb; cases hb)]

/-- C3: the monthly cell is written only on a sign-in transition — to
"Present(LATE)" exactly when the scan time is strictly after
`LATE_SIGNIN_TIME`, else "Present"; a sign-out transition and the
end-of-day sweep never write the monthly sheet; and a cell holding a
Present value can never be cleared or reverted by a later scan or sweep. -/
theorem monthly_cell_signin_only (st : ScanState) (tag : String) (now : Nat)
    (sOk : Bool) :
    (∀ name db' oid,
      get_assigned_name_and_tag st.db tag sOk = (some name, db') →
      check_cooldown st.last_tap_times name now = true →
      is_signin_allowed (now % secondsPerDay) = true →
      get_current_onsite_status db'.onsite tag (now / secondsPerDay) =
        some (true, oid) →
      (on_tag_scan tag now sOk true st).2.monthly = st.monthly) ∧
    (∀ name db',
      get_assigned_name_and_tag st.db tag sOk = (some name, db') →
      check_cooldown st.last_tap_times name now = true →
      is_signin_allowed (now % secondsPerDay) = true →
      (∀ oid, get_current_onsite_status db'.onsite tag (now / secondsPerDay) ≠
        some (true, oid)) →
      List.lookup name st.monthly ≠ none →
      List.lookup name (on_tag_scan tag now sOk true st).2.monthly =
        some (if LATE_SIGNIN_TIME < now % secondsPerDay then "Present(LATE)"
              else "Present")) ∧
    (∀ txOk, (auto_mark_out_all_users now txOk st).monthly = st.monthly) ∧
    (∀ dOk name,
      (List.lookup name st.monthly = some "Present" ∨
       List.lookup name st.monthly = some "Present(LATE)") →
      (List.lookup name (on_tag_scan tag now sOk dOk st).2.monthly =
         some "Present" ∨
       List.lookup name (on_tag_scan tag now sOk dOk st).2.monthly =
         some "Present(LATE)")) := by
  refine ⟨?_, ?_, ?_, ?_⟩
  · intro name db' oid hres hcool hwin hstat
    rw [on_tag_scan_signout st tag name now sOk db' oid hres hcool hwin hstat]
    exact update_monthly_status_zero st.monthly name _
  · intro name db' hres hcool hwin hstat hmem
    rw [on_tag_scan_signin st tag name now sOk db' hres hcool hwin hstat]
    exact update_monthly_status_one_lookup st.monthly name _ hmem
  · intro txOk
    exact sweep_monthly_frame now txOk st
  · intro dOk name hpresent
    rcases scan_monthly_cases st tag now sOk dOk with hsame | ⟨name', _, hupd⟩
    · rw [hsame]; exact hpresent
    · rw [hupd]
      rcases update_monthly_status_one_cases st.monthly name'
          (now % secondsPerDay) name with hkeep | hset
      · rw [hkeep]; exact hpresent
      · rw [hset]
        by_cases hl : LATE_SIGNIN_TIME < now % secondsPerDay
        · right; rw [if_pos hl]
        · left; rw [if_neg hl]

/-- Witness for C3: Alice signs in at 07:00 (cell becomes "Present"), a
second scan at 07:10 is a sign-out that leaves the cell untouched, and the
sweep never changes the monthly sheet. -/
theorem monthly_cell_signin_only_witness :
    List.lookup "Alice"
      (on_tag_scan "T1" 25200 true true demoState).2.monthly = some "Present" ∧
    (on_tag_scan "T1" 25800 true true
      (on_tag_scan "T1" 25200 true true demoState).2).2.monthly =
      (on_tag_scan "T1" 25200 true true demoState).2.monthly ∧
    (auto_mark_out_all_users 61200 true demoState).monthly =
      demoState.monthly := by
  refine ⟨?_, ?_, ?_⟩
  · have hnone : get_current_onsite_status demoState.db.onsite "T1"
        (25200 / secondsPerDay) = none := by decide
    have h := (monthly_cell_signin_only demoState "T1" 25200 true).2.1
      "Alice" demoState.db (by decide) (by decide) (by decide)
      (fun oid hc => by rw [hnone] at hc; cases hc) (by decide)
    rw [h]
    decide
  · exact (monthly_cell_signin_only
      (on_tag_scan "T1" 25200 true true demoState).2 "T1" 25800 true).1
      "Alice" (on_tag_scan "T1" 25200 true true demoState).2.db 1
      (by decide) (by decide) (by decide) (by decide)
  · exact (monthly_cell_signin_only demoState "T1" 61200 true).2.2.1 true

theorem update_onsite_staff_eq (db : DBState) (oid now : Nat) :
    (update_onsite_record_in_db db oid now).staff = db.staff := rfl

theorem update_onsite_sign_eq (db : DBState) (oid now : Nat) :
    (update_onsite_record_in_db db oid now).sign = db.sign := rfl

theorem update_onsite_next_eq (db : DBState) (oid now : Nat) :
    (update_onsite_record_in_db db oid now).next_id = db.next_id := rfl

theorem update_onsite_onsite_eq (db : DBState) (oid now : Nat) :
    (update_onsite_record_in_db db oid now).onsite =
      db.onsite.map (fun r => if r.onsite_id = oid then closeRec now r else r) := rfl

theorem closeRec_onsite_id (now : Nat) (r : OnsiteRecord) :
    (closeRec now r).onsite_id = r.onsite_id := rfl

theorem sweepCloseIds_nil (staff : List StaffRow) :
    sweepCloseIds staff [] = [] := rfl

theorem sweepCloseIds_cons_resolved (staff : List StaffRow) (u : OnsiteRecord)
    (users : List OnsiteRecord) (n : String)
    (h : get_staff_name_by_tag_id staff u.tag_id = some n) :
    sweepCloseIds staff (u :: users) =
      u.onsite_id :: sweepCloseIds staff users := by
  simp [sweepCloseIds, List.filter_cons, h]

theorem sweepCloseIds_cons_none (staff : List StaffRow) (u : OnsiteRecord)
    (users : List OnsiteRecord)
    (h : get_staff_name_by_tag_id staff u.tag_id = none) :
    sweepCloseIds staff (u :: users) = sweepCloseIds staff users := by
  simp [sweepCloseIds, List.filter_cons, h]

theorem sweepStagedNames_cons_none (staff : List StaffRow) (daily : DailySheet)
    (u : OnsiteRecord) (users : List OnsiteRecord)
    (h : get_staff_name_by_tag_id staff u.tag_id = none) :
    sweepStagedNames staff daily (u :: users) =
      sweepStagedNames staff daily users := by
  simp [sweepStagedNames, List.filterMap_cons, h]

theorem sweepStagedNames_cons_lookup (staff : List StaffRow) (daily : DailySheet)
    (u : OnsiteRecord) (users : List OnsiteRecord) (n : String) (v : String × Nat)
    (h : get_staff_name_by_tag_id staff u.tag_id = some n)
    (hl : List.lookup n daily = some v) :
    sweepStagedNames staff daily (u :: users) =
      n :: sweepStagedNames staff daily users := by
  simp [sweepStagedNames, List.filterMap_cons, h, hl]

theorem sweepStagedNames_cons_nolookup (staff : List StaffRow) (daily : DailySheet)
    (u : OnsiteRecord) (users : List OnsiteRecord) (n : String)
    (h : get_staff_name_by_tag_id staff u.tag_id = some n)
    (hl : List.lookup n daily = none) :
    sweepStagedNames staff daily (u :: users) =
      sweepStagedNames staff daily users := by
  simp [sweepStagedNames, List.filterMap_cons, h, hl]

/-- Closing by one id and then by a set of ids is closing by the enlarged
set (closing is idempotent and preserves the id). -/
theorem close_map_compose (now uid : Nat) (ids : List Nat)
    (l : List OnsiteRecord) :
    (l.map (fun r => if r.onsite_id = uid then closeRec now r else r)).map
      (fun r => if r.onsite_id ∈ ids then closeRec now r else r) =
    l.map (fun r => if r.onsite_id ∈ uid :: ids then closeRec now r else r) := by
  rw [List.map_map]
  apply List.map_congr_left
  intro r _
  by_cases h1 : r.onsite_id = uid
  · by_cases h2 : r.onsite_id ∈ ids <;>
      simp [Function.comp, h1, h2, closeRec, List.mem_cons]
  · by_cases h2 : r.onsite_id ∈ ids <;>
      simp [Function.comp, h1, h2, List.mem_cons]

/-- Full characterization of the sweep's transaction fold. -/
theorem sweep_foldl_char (now : Nat) (daily : DailySheet) :
    ∀ (users : List OnsiteRecord) (db : DBState) (acc : List String),
      users.foldl (sweepStep now daily) (db, acc) =
        ({ db with onsite := db.onsite.map (fun r =>
             if r.onsite_id ∈ sweepCloseIds db.staff users then closeRec now r
             else r) },
         acc ++ sweepStagedNames db.staff daily users) := by
  intro users
  induction users with
  | nil =>
      intro db acc
      simp [sweepCloseIds, sweepStagedNames]
  | cons u users ih =>
      intro db acc
      rw [List.foldl_cons]
      rcases hname : get_staff_name_by_tag_id db.staff u.tag_id with _ | n
      · have hstep : sweepStep now daily (db, acc) u = (db, acc) := by
          unfold sweepStep
          rw [hname]
        rw [hstep, ih db acc, sweepCloseIds_cons_none _ _ _ hname,
            sweepStagedNames_cons_none _ _ _ _ hname]
      · rcases hlook : List.lookup n daily with _ | v
        · have hstep : sweepStep now daily (db, acc) u =
              (update_onsite_record_in_db db u.onsite_id now, acc) := by
            simp [sweepStep, hname, hlook]
          rw [hstep, ih _ _]
          simp only [update_onsite_staff_eq, update_onsite_sign_eq,
            update_onsite_next_eq, update_onsite_onsite_eq]
          rw [close_map_compose, sweepCloseIds_cons_resolved _ _ _ _ hname,
              sweepStagedNames_cons_nolookup _ _ _ _ _ hname hlook]
        · have hstep : sweepStep now daily (db, acc) u =
              (update_onsite_record_in_db db u.onsite_id now, acc ++ [n]) := by
            simp [sweepStep, hname, hlook]
          rw [hstep, ih _ _]
          simp only [update_onsite_staff_eq, update_onsite_sign_eq,
            update_onsite_next_eq, update_onsite_onsite_eq]
          rw [close_map_compose, sweepCloseIds_cons_resolved _ _ _ _ hname,
              sweepStagedNames_cons_lookup _ _ _ _ _ _ hname hlook,
              List.append_assoc]
          rfl

/-- Characterization of the whole sweep past the cutoff with a successful
transaction. -/
theorem auto_mark_out_char (now : Nat) (st : ScanState)
    (hcut : is_after_cutoff (now % secondsPerDay) = true) :
    auto_mark_out_all_users now true st =
      { st with
        db := { st.db with onsite := st.db.onsite.map (fun r =>
          if r.onsite_id ∈ sweepCloseIds st.db.staff
              (st.db.onsite.filter
                (fun r => r.active && withinDay r (now / secondsPerDay)))
            then closeRec now r else r) }
        daily := st.daily.map (fun p =>
          if p.1 ∈ sweepStagedNames st.db.staff st.daily
              (st.db.onsite.filter
                (fun r => r.active && withinDay r (now / secondsPerDay)))
            then (p.1, ("OUT", now % secondsPerDay)) else p) } := by
  simp only [auto_mark_out_all_users, hcut, if_true]
  by_cases hempty : (st.db.onsite.filter
      (fun r => r.active && withinDay r (now / secondsPerDay))).isEmpty = true
  · rw [if_pos hempty]
    have hnil : st.db.onsite.filter
        (fun r => r.active && withinDay r (now / secondsPerDay)) = [] := by
      rwa [List.isEmpty_iff] at hempty
    rw [hnil]
    simp [sweepCloseIds, sweepStagedNames]
  · rw [if_neg hempty, sweep_foldl_char]
    simp

/-- C7 (amended): past the cutoff, the sweep force-closes every active
record of today whose tag resolves in `Staff` and stages the daily "OUT"
update for each resolved name present in the daily sheet; an active record
whose tag does not resolve is skipped and stays active; at or before the
cutoff nothing changes. -/
theorem sweeper_amended (st : ScanState) (now : Nat)
    (hnodup : (st.db.onsite.map (fun r => r.onsite_id)).Nodup) :
    (is_after_cutoff (now % secondsPerDay) = false →
      ∀ txOk, auto_mark_out_all_users now txOk st = st) ∧
    (is_after_cutoff (now % secondsPerDay) = true →
      ∀ r ∈ st.db.onsite, r.active = true →
        withinDay r (now / secondsPerDay) = true →
        (get_staff_name_by_tag_id st.db.staff r.tag_id ≠ none →
          closeRec now r ∈ (auto_mark_out_all_users now true st).db.onsite ∧
          (closeRec now r).active = false ∧
          (closeRec now r).sign_out_date = some now ∧
          (∀ n, get_staff_name_by_tag_id st.db.staff r.tag_id = some n →
            List.lookup n st.daily ≠ none →
            List.lookup n (auto_mark_out_all_users now true st).daily =
              some ("OUT", now % secondsPerDay))) ∧
        (get_staff_name_by_tag_id st.db.staff r.tag_id = none →
          r ∈ (auto_mark_out_all_users now true st).db.onsite)) := by
  constructor
  · intro hcut txOk
    simp [auto_mark_out_all_users, hcut]
  · intro hcut r hr hact hwin
    rw [auto_mark_out_char now st hcut]
    set users := st.db.onsite.filter
      (fun r => r.active && withinDay r (now / secondsPerDay)) with husers
    have hrusers : r ∈ users := by
      rw [husers]
      exact List.mem_filter.mpr ⟨hr, by rw [hact, hwin]; rfl⟩
    constructor
    · intro hres
      rcases hn : get_staff_name_by_tag_id st.db.staff r.tag_id with _ | n
      · exact absurd hn hres
      have hid : r.onsite_id ∈ sweepCloseIds st.db.staff users := by
        unfold sweepCloseIds
        exact List.mem_map.mpr
          ⟨r, List.mem_filter.mpr ⟨hrusers, by rw [hn]; rfl⟩, rfl⟩
      refine ⟨?_, rfl, rfl, ?_⟩
      · exact List.mem_map.mpr ⟨r, hr, by rw [if_pos hid]⟩
      · intro n' hn' hd
        injection hn' with hnn
        subst hnn
        rcases hv : List.lookup n st.daily with _ | v
        · exact absurd hv hd
        have hstaged : n ∈ sweepStagedNames st.db.staff st.daily users := by
          unfold sweepStagedNames
          refine List.mem_filterMap.mpr ⟨r, hrusers, ?_⟩
          show (match get_staff_name_by_tag_id st.db.staff r.tag_id with
            | some m =>
                match List.lookup m st.daily with
                | some _ => some m
                | none => none
            | none => none) = some n
          rw [hn]
          show (match List.lookup n st.daily with
            | some _ => some n
            | none => none) = some n
          rw [hv]
        rw [lookup_map_setmem, if_pos hstaged, hv]
        rfl
    · intro hres
      have hnotin : r.onsite_id ∉ sweepCloseIds st.db.staff users := by
        intro hmem
        unfold sweepCloseIds at hmem
        rcases List.mem_map.mp hmem with ⟨u, hu, huid⟩
        rcases List.mem_filter.mp hu with ⟨hu1, hu2⟩
        have huons : u ∈ st.db.onsite := by
          rw [husers] at hu1
          exact (List.mem_filter.mp hu1).1
        have hur : u = r := List.inj_on_of_nodup_map hnodup huons hr huid
        rw [hur, hres] at hu2
        cases hu2
      exact List.mem_map.mpr ⟨r, hr, by rw [if_neg hnotin]⟩

/-- C7 as stated is false: at 17:00 (past the cutoff) the sweep leaves the
active record of the unresolvable tag `T9` untouched — still active with no
sign-out timestamp — instead of force-closing it. -/
theorem sweeper_claim_cex :
    is_after_cutoff (61200 % secondsPerDay) = true ∧
    (⟨2, "T9", 37000, true, none⟩ : OnsiteRecord) ∈
      (auto_mark_out_all_users 61200 true c7State).db.onsite := by
  decide

/-- Witness for the amended C7: Alice's record is force-closed with
`sign_out_date = 61200` and her daily row is staged to OUT, while at 13:53
(before the cutoff) the sweep is a no-op. -/
theorem sweeper_amended_witness :
    (⟨1, "T1", 36000, false, some 61200⟩ : OnsiteRecord) ∈
      (auto_mark_out_all_users 61200 true c7State).db.onsite ∧
    List.lookup "Alice" (auto_mark_out_all_users 61200 true c7State).daily =
      some ("OUT", 61200 % secondsPerDay) ∧
    (⟨2, "T9", 37000, true, none⟩ : OnsiteRecord) ∈
      (auto_mark_out_all_users 61200 true c7State).db.onsite ∧
    auto_mark_out_all_users 50000 true c7State = c7State := by
  have h := (sweeper_amended c7State 61200 (by decide)).2 (by decide)
    ⟨1, "T1", 36000, true, none⟩ (by decide) (by decide) (by decide)
  have h1 := h.1 (by decide)
  have h9 := (sweeper_amended c7State 61200 (by decide)).2 (by decide)
    ⟨2, "T9", 37000, true, none⟩ (by decide) (by decide) (by decide)
  exact ⟨h1.1, h1.2.2.2 "Alice" (by decide) (by decide),
         h9.2 (by decide),
         (sweeper_amended c7State 50000 (by decide)).1 (by decide) true⟩

/-! ## Support for the alternation claim (C1) -/

theorem getLast?_cons_eq_getLastD {α : Type} (m : α) (l : List α) :
    (m :: l).getLast? = some (l.getLastD m) := by
  induction l generalizing m with
  | nil => rfl
  | cons a l ih => rw [List.getLast?_cons_cons, ih a, List.getLastD_cons]

/-- The folded maximum over a strictly date-sorted tail is its last row. -/
theorem latestIn_aux :
    ∀ (l : List OnsiteRecord) (m : OnsiteRecord),
      List.Chain' (fun a b => a.scan_date < b.scan_date) (m :: l) →
      l.foldl
        (fun acc r =>
          match acc with
          | none => some r
          | some mm => if mm.scan_date < r.scan_date then some r else some mm)
        (some m) = some (l.getLastD m) := by
  intro l
  induction l with
  | nil => intro m _; rfl
  | cons a l ih =>
      intro m hch
      rcases List.chain'_cons.mp hch with ⟨hma, hch'⟩
      rw [List.foldl_cons]
      show l.foldl _ (if m.scan_date < a.scan_date then some a else some m) = _
      rw [if_pos hma, List.getLastD_cons]
      exact ih a hch'

/-- On a strictly date-sorted list, the SQL `ORDER BY scan_date DESC
LIMIT 1` row is the last row. -/
theorem latestIn_chain_getLast (l : List OnsiteRecord)
    (h : List.Chain' (fun a b => a.scan_date < b.scan_date) l) :
    latestIn l = l.getLast? := by
  cases l with
  | nil => rfl
  | cons m l =>
      unfold latestIn
      rw [List.foldl_cons]
      show l.foldl _ (some m) = _
      rw [latestIn_aux l m h, getLast?_cons_eq_getLastD]

/-- A fresh record of the scanned tag stamped inside day `d` passes the
today's-window filter. -/
theorem todaysRecords_append_new (l : List OnsiteRecord) (tag : String)
    (d : Nat) (r : OnsiteRecord) (htag : r.tag_id = tag)
    (hd : r.scan_date / secondsPerDay = d) :
    todaysRecords (l ++ [r]) tag d = todaysRecords l tag d ++ [r] := by
  unfold todaysRecords
  rw [List.filter_append]
  congr 1
  have hsec : secondsPerDay = 86400 := rfl
  rw [hsec] at hd
  have h1 : todayStart d ≤ r.scan_date := by
    have h := Nat.div_mul_le_self r.scan_date 86400
    rw [hd] at h
    show d * secondsPerDay ≤ r.scan_date
    rw [hsec]
    omega
  have h2 : r.scan_date ≤ todayEnd d := by
    have hmod := Nat.mod_lt r.scan_date (show 0 < 86400 by decide)
    have hdm := Nat.div_add_mod r.scan_date 86400
    rw [hd] at hdm
    show r.scan_date ≤ d * secondsPerDay + (secondsPerDay - 1)
    rw [hsec]
    omega
  have : (r.tag_id == tag && withinDay r d) = true := by
    rw [htag]
    simp [withinDay, h1, h2]
  simp [List.filter, this]

/-- The today's-window filter commutes with closing records by id (closing
changes neither the tag nor the scan date). -/
theorem todaysRecords_map_closeIf (onsite : List OnsiteRecord) (tag : String)
    (d : Nat) (now oid : Nat) :
    todaysRecords
      (onsite.map (fun r => if r.onsite_id = oid then closeRec now r else r))
      tag d =
    (todaysRecords onsite tag d).map
      (fun r => if r.onsite_id = oid then closeRec now r else r) := by
  unfold todaysRecords
  induction onsite with
  | nil => rfl
  | cons r rs ih =>
      rw [List.map_cons, List.filter_cons, List.filter_cons]
      have hpred : ((if r.onsite_id = oid then closeRec now r else r).tag_id == tag
          && withinDay (if r.onsite_id = oid then closeRec now r else r) d) =
          (r.tag_id == tag && withinDay r d) := by
        by_cases h : r.onsite_id = oid <;> simp [h, closeRec, withinDay]
      rw [hpred]
      cases hp : (r.tag_id == tag && withinDay r d) <;> simp [hp, ih]

/-- `closeRec`-by-id preserves `scan_date`. -/
theorem closeIf_scan_date (now oid : Nat) (r : OnsiteRecord) :
    (if r.onsite_id = oid then closeRec now r else r).scan_date = r.scan_date := by
  by_cases h : r.onsite_id = oid <;> simp [h, closeRec]

/-- `closeRec`-by-id preserves `onsite_id`. -/
theorem closeIf_onsite_id (now oid : Nat) (r : OnsiteRecord) :
    (if r.onsite_id = oid then closeRec now r else r).onsite_id = r.onsite_id := by
  by_cases h : r.onsite_id = oid <;> simp [h, closeRec]

theorem runScans_append_single (tag : String) (ts : List Nat) (t : Nat)
    (st : ScanState) :
    runScans tag (ts ++ [t]) st =
      ((runScans tag ts st).1 ++
        [(on_tag_scan tag t true true (runScans tag ts st).2).1],
       (on_tag_scan tag t true true (runScans tag ts st).2).2) := by
  induction ts generalizing st with
  | nil => rfl
  | cons a ts ih => simp [runScans, ih]

theorem add_onsite_onsite_eq (db : DBState) (tag : String) (now : Nat) :
    (add_onsite_record_to_db db tag now).onsite =
      db.onsite ++ [⟨db.next_id, tag, now, true, none⟩] := rfl

theorem add_onsite_next_eq (db : DBState) (tag : String) (now : Nat) :
    (add_onsite_record_to_db db tag now).next_id = db.next_id + 1 := rfl

theorem mem_of_getLast?_eq {α : Type} {l : List α} {a : α}
    (h : l.getLast? = some a) : a ∈ l := by
  have hsplit := List.dropLast_append_getLast? a (Option.mem_def.mpr h)
  rw [← hsplit]
  exact List.mem_append_right _ (List.mem_singleton_self a)

/-- Closing the list's last row (identified by its `onsite_id`, unique in
the list) rewrites exactly that row. -/
theorem map_closeIf_split (now : Nat) (l : List OnsiteRecord)
    (last : OnsiteRecord) (hgl : l.getLast? = some last)
    (hnd : (l.map (fun r => r.onsite_id)).Nodup) :
    l.map (fun r => if r.onsite_id = last.onsite_id then closeRec now r else r)
      = l.dropLast ++ [closeRec now last] := by
  have hsplit : l.dropLast ++ [last] = l :=
    List.dropLast_append_getLast? last (Option.mem_def.mpr hgl)
  conv_lhs => rw [← hsplit]
  rw [List.map_append]
  congr 1
  · have hcong : ∀ r ∈ l.dropLast,
        (if r.onsite_id = last.onsite_id then closeRec now r else r) = id r := by
      intro r hr
      by_cases hid : r.onsite_id = last.onsite_id
      · exfalso
        have hrl : r ∈ l := by
          rw [← hsplit]; exact List.mem_append_left _ hr
        have hlastl : last ∈ l := mem_of_getLast?_eq hgl
        have hreq : r = last := List.inj_on_of_nodup_map hnd hrl hlastl hid
        have hndl : l.Nodup := List.Nodup.of_map _ hnd
        rw [← hsplit] at hndl
        rcases List.nodup_append.mp hndl with ⟨_, _, hdisj⟩
        exact hdisj hr (by rw [hreq]; exact List.mem_singleton_self last)
      · rw [if_neg hid]; rfl
    rw [List.map_congr_left hcong, List.map_id]
  · simp

/-- One accepted scan advances the invariant: it is accepted, and the
invariant holds for `k + 1` with the new time as the latest tap. -/
theorem alt_step (tag name : String) (d k tl : Nat) (st : ScanState) (t : Nat)
    (inv : AltInv tag name d k tl st)
    (hday : t / secondsPerDay = d)
    (hwin : is_signin_allowed (t % secondsPerDay) = true)
    (hcool : k ≠ 0 → tl + COOLDOWN_SECONDS ≤ t) :
    (on_tag_scan tag t true true st).1 = true ∧
    AltInv tag name d (k + 1) t (on_tag_scan tag t true true st).2 := by
  have hres : get_assigned_name_and_tag st.db tag true = (some name, st.db) := by
    unfold get_assigned_name_and_tag
    rw [inv.hsign]
    show (if st.db.staff.any (fun s => s.tag_id == tag) = true
        then (some name, st.db) else (none, st.db)) = (some name, st.db)
    rw [if_pos inv.hstaff]
  have htl : k ≠ 0 → tl < t := by
    intro hk
    have h := hcool hk
    have h18 : COOLDOWN_SECONDS = 18 := rfl
    omega
  have hcool' : check_cooldown st.last_tap_times name t = true := by
    by_cases hk : k = 0
    · exact check_cooldown_eq_of_none _ _ _ (by rw [inv.htap, if_pos hk])
    · rw [check_cooldown_eq_of_lookup _ _ _ tl (by rw [inv.htap, if_neg hk])]
      have hnlt : ¬ ((t : Int) - (tl : Int) < (COOLDOWN_SECONDS : Int)) := by
        have hco := hcool hk
        have h18 : COOLDOWN_SECONDS = 18 := rfl
        rw [h18] at hco
        have h18i : (COOLDOWN_SECONDS : Int) = 18 := rfl
        rw [h18i]
        omega
      rw [if_neg hnlt]
  have hstat0 : get_current_onsite_status st.db.onsite tag (t / secondsPerDay) =
      (todaysRecords st.db.onsite tag d).getLast?.map
        (fun r => (r.active, r.onsite_id)) := by
    rw [hday]
    unfold get_current_onsite_status
    rw [latestIn_chain_getLast _ inv.hchain]
  by_cases hk2 : k % 2 = 1
  · -- k odd: the latest record is active, so this scan is a SIGN-OUT
    have hkpos : k ≠ 0 := by omega
    have hne : todaysRecords st.db.onsite tag d ≠ [] := by
      intro h
      have hl := inv.hlen
      rw [h] at hl
      simp at hl
      omega
    rcases hgl : (todaysRecords st.db.onsite tag d).getLast? with _ | last
    · exact absurd (List.getLast?_eq_none_iff.mp hgl) hne
    have hlastact : last.active = true := by
      have := inv.hlast last hgl
      rw [this, hk2]
      rfl
    have hstat : get_current_onsite_status st.db.onsite tag (t / secondsPerDay) =
        some (true, last.onsite_id) := by
      rw [hstat0, hgl, Option.map_some', hlastact]
    rw [on_tag_scan_signout st tag name t true st.db last.onsite_id hres hcool'
      hwin hstat]
    refine ⟨rfl, ?_⟩
    have hndtod : ((todaysRecords st.db.onsite tag d).map
        (fun r => r.onsite_id)).Nodup := by
      apply List.Nodup.sublist _ inv.hnodup
      exact List.Sublist.map _ (List.filter_sublist _)
    have htod' : todaysRecords
        (update_onsite_record_in_db st.db last.onsite_id t).onsite tag d =
        (todaysRecords st.db.onsite tag d).dropLast ++ [closeRec t last] := by
      rw [update_onsite_onsite_eq, todaysRecords_map_closeIf,
        map_closeIf_split t _ last hgl hndtod]
    have hsplit : (todaysRecords st.db.onsite tag d).dropLast ++ [last] =
        todaysRecords st.db.onsite tag d :=
      List.dropLast_append_getLast? last (Option.mem_def.mpr hgl)
    constructor
    · exact inv.hsign
    · exact inv.hstaff
    · show List.lookup name ((name, t) :: st.last_tap_times) = _
      rw [if_neg (Nat.succ_ne_zero k)]
      simp [List.lookup]
    · intro r hr
      rw [update_onsite_onsite_eq] at hr
      rcases List.mem_map.mp hr with ⟨x, hx, rfl⟩
      show (if x.onsite_id = last.onsite_id then closeRec t x else x).onsite_id <
        (update_onsite_record_in_db st.db last.onsite_id t).next_id
      rw [closeIf_onsite_id, update_onsite_next_eq]
      exact inv.hfresh x hx
    · show ((update_onsite_record_in_db st.db last.onsite_id t).onsite.map
        (fun r => r.onsite_id)).Nodup
      rw [update_onsite_onsite_eq, List.map_map]
      have hcong : ∀ r ∈ st.db.onsite,
          ((fun r => r.onsite_id) ∘
            (fun r => if r.onsite_id = last.onsite_id then closeRec t r else r)) r
            = r.onsite_id := by
        intro r _
        show (if r.onsite_id = last.onsite_id then closeRec t r else r).onsite_id
          = r.onsite_id
        exact closeIf_onsite_id t last.onsite_id r
      rw [List.map_congr_left hcong]
      exact inv.hnodup
    · rw [htod', List.length_append, List.length_dropLast, inv.hlen]
      simp
      omega
    · rw [htod']
      have hch0 : List.Chain' (fun a b => a.scan_date < b.scan_date)
          ((todaysRecords st.db.onsite tag d).dropLast ++ [last]) := by
        rw [hsplit]
        exact inv.hchain
      rcases List.chain'_append.mp hch0 with ⟨h1, _, h3⟩
      refine List.chain'_append.mpr ⟨h1, List.chain'_singleton _, ?_⟩
      intro x hx y hy
      have hy' : y = closeRec t last := by
        have := hy
        simp at this
        exact this.symm
      rw [hy']
      show x.scan_date < (closeRec t last).scan_date
      exact h3 x hx last (by simp)
    · intro r hr
      rw [htod'] at hr
      rcases List.mem_append.mp hr with h1 | h2
      · have hrm : r ∈ todaysRecords st.db.onsite tag d := by
          rw [← hsplit]
          exact List.mem_append_left _ h1
        exact le_trans (inv.hle r hrm) (le_of_lt (htl hkpos))
      · have : r = closeRec t last := List.mem_singleton.mp h2
        rw [this]
        show last.scan_date ≤ t
        exact le_trans (inv.hle last (mem_of_getLast?_eq hgl))
          (le_of_lt (htl hkpos))
    · intro r hr
      rw [htod', List.dropLast_concat] at hr
      exact inv.hact r hr
    · intro r hgl'
      rw [htod', List.getLast?_concat] at hgl'
      injection hgl' with he
      rw [← he]
      show (closeRec t last).active = decide ((k + 1) % 2 = 1)
      have : (k + 1) % 2 = 0 := by omega
      rw [this]
      rfl
    · intro r hr hra
      rw [htod'] at hr
      rcases List.mem_append.mp hr with h1 | h2
      · have hrm : r ∈ todaysRecords st.db.onsite tag d := by
          rw [← hsplit]
          exact List.mem_append_left _ h1
        exact inv.hclosed r hrm hra
      · have : r = closeRec t last := List.mem_singleton.mp h2
        rw [this]
        show some t ≠ none
        intro hc
        cases hc
  · -- k even: no active record, so this scan is a SIGN-IN
    have hk0 : k % 2 = 0 := by omega
    have hallfalse : ∀ r ∈ todaysRecords st.db.onsite tag d, r.active = false := by
      intro r hr
      rcases List.eq_nil_or_concat' (todaysRecords st.db.onsite tag d) with
        hnil | ⟨l', a, hsplit⟩
      · rw [hnil] at hr
        cases hr
      · rw [hsplit] at hr
        rcases List.mem_append.mp hr with h1 | h2
        · apply inv.hact
          rw [hsplit, List.dropLast_concat]
          exact h1
        · have hra : r = a := List.mem_singleton.mp h2
          have hgl : (todaysRecords st.db.onsite tag d).getLast? = some a := by
            rw [hsplit, List.getLast?_concat]
          have := inv.hlast a hgl
          rw [hra, this, hk0]
          rfl
    have hemp : k = 0 → todaysRecords st.db.onsite tag d = [] := by
      intro hk
      apply List.length_eq_zero.mp
      rw [inv.hlen, hk]
    have hnottrue : ∀ oid, get_current_onsite_status st.db.onsite tag
        (t / secondsPerDay) ≠ some (true, oid) := by
      intro oid hc
      rw [hstat0] at hc
      rcases hgl : (todaysRecords st.db.onsite tag d).getLast? with _ | last
      · rw [hgl] at hc
        cases hc
      · rw [hgl, Option.map_some'] at hc
        have hfa : last.active = false := hallfalse last (mem_of_getLast?_eq hgl)
        rw [hfa] at hc
        simp at hc
    rw [on_tag_scan_signin st tag name t true st.db hres hcool' hwin hnottrue]
    refine ⟨rfl, ?_⟩
    have htod' : todaysRecords (add_onsite_record_to_db st.db tag t).onsite tag d
        = todaysRecords st.db.onsite tag d ++
          [⟨st.db.next_id, tag, t, true, none⟩] := by
      rw [add_onsite_onsite_eq]
      exact todaysRecords_append_new _ _ _ _ rfl hday
    constructor
    · exact inv.hsign
    · exact inv.hstaff
    · show List.lookup name ((name, t) :: st.last_tap_times) = _
      rw [if_neg (Nat.succ_ne_zero k)]
      simp [List.lookup]
    · intro r hr
      rw [add_onsite_onsite_eq] at hr
      show r.onsite_id < (add_onsite_record_to_db st.db tag t).next_id
      rw [add_onsite_next_eq]
      rcases List.mem_append.mp hr with h1 | h2
      · have := inv.hfresh r h1
        omega
      · have hre : r = ⟨st.db.next_id, tag, t, true, none⟩ := List.mem_singleton.mp h2
        rw [hre]
        show st.db.next_id < st.db.next_id + 1
        omega
    · show ((add_onsite_record_to_db st.db tag t).onsite.map
        (fun r => r.onsite_id)).Nodup
      rw [add_onsite_onsite_eq, List.map_append, List.nodup_append]
      refine ⟨inv.hnodup, List.nodup_singleton _, ?_⟩
      intro x hx hx2
      rcases List.mem_map.mp hx with ⟨r, hr, rfl⟩
      have hlt := inv.hfresh r hr
      have hx3 : r.onsite_id = st.db.next_id := by simpa using hx2
      omega
    · rw [htod', List.length_append, inv.hlen]
      simp
      omega
    · rw [htod']
      refine List.chain'_append.mpr ⟨inv.hchain, List.chain'_singleton _, ?_⟩
      intro x hx y hy
      have hy' : y = ⟨st.db.next_id, tag, t, true, none⟩ := by
        have := hy
        simp at this
        exact this.symm
      by_cases hk : k = 0
      · rw [hemp hk] at hx
        simp at hx
      · rw [hy']
        show x.scan_date < t
        have hxm : x ∈ todaysRecords st.db.onsite tag d :=
          mem_of_getLast?_eq (Option.mem_def.mp hx)
        exact lt_of_le_of_lt (inv.hle x hxm) (htl hk)
    · intro r hr
      rw [htod'] at hr
      rcases List.mem_append.mp hr with h1 | h2
      · by_cases hk : k = 0
        · rw [hemp hk] at h1
          cases h1
        · show r.scan_date ≤ t
          exact le_trans (inv.hle r h1) (le_of_lt (htl hk))
      · have : r = ⟨st.db.next_id, tag, t, true, none⟩ := List.mem_singleton.mp h2
        rw [this]
    · intro r hr
      rw [htod', List.dropLast_concat] at hr
      exact hallfalse r hr
    · intro r hgl'
      rw [htod', List.getLast?_concat] at hgl'
      injection hgl' with he
      rw [← he]
      show true = decide ((k + 1) % 2 = 1)
      have h1 : (k + 1) % 2 = 1 := by omega
      rw [h1]
      rfl
    · intro r hr hra
      rw [htod'] at hr
      rcases List.mem_append.mp hr with h1 | h2
      · exact inv.hclosed r h1 hra
      · have : r = ⟨st.db.next_id, tag, t, true, none⟩ := List.mem_singleton.mp h2
        rw [this] at hra
        cases hra

/-- A record list in which every row but the last is closed has at most one
active row. -/
theorem countP_active_le_one (l : List OnsiteRecord)
    (hact : ∀ r ∈ l.dropLast, r.active = false) :
    l.countP (fun r => r.active) ≤ 1 := by
  rcases List.eq_nil_or_concat' l with rfl | ⟨l', a, rfl⟩
  · simp
  · rw [List.countP_append]
    have h1 : l'.countP (fun r => r.active) = 0 := by
      rw [List.countP_eq_zero]
      intro r hr
      have := hact r (by rw [List.dropLast_concat]; exact hr)
      simp [this]
    have h2 : List.countP (fun r => r.active) [a] ≤ 1 := by
      cases ha : a.active <;> simp [List.countP_cons, ha]
    omega

/-- C1: starting a day with no records for a tag, a sequence of accepted
scans alternates.  Every scan in the sequence is accepted; after `k` scans
the tag has exactly `⌈k/2⌉` records today (a new record is inserted exactly
on the 1st, 3rd, 5th … scans, and the 2nd, 4th … scans mutate the existing
record instead); every closed record carries a sign-out timestamp; at most
one record is active at every point; and the tag's derived status is
IN after an odd number of scans and OUT after a nonzero even number. -/
theorem scan_alternation_sequence (st : ScanState) (tag name : String)
    (d : Nat) (times : List Nat)
    (hsign : List.lookup tag st.db.sign = some name)
    (hstaff : st.db.staff.any (fun s => s.tag_id == tag) = true)
    (htap : List.lookup name st.last_tap_times = none)
    (hfresh : ∀ r ∈ st.db.onsite, r.onsite_id < st.db.next_id)
    (hnodup : (st.db.onsite.map (fun r => r.onsite_id)).Nodup)
    (hempty : todaysRecords st.db.onsite tag d = [])
    (hday : ∀ t ∈ times, t / secondsPerDay = d)
    (hwin : ∀ t ∈ times, is_signin_allowed (t % secondsPerDay) = true)
    (hgap : times.Chain' (fun a b => a + COOLDOWN_SECONDS ≤ b)) :
    ∀ k, k ≤ times.length →
      (runScans tag (times.take k) st).1 = List.replicate k true ∧
      (todaysRecords (runScans tag (times.take k) st).2.db.onsite tag d).length
        = (k + 1) / 2 ∧
      (todaysRecords (runScans tag (times.take k) st).2.db.onsite tag d).countP
        (fun r => r.active) ≤ 1 ∧
      (∀ r ∈ todaysRecords (runScans tag (times.take k) st).2.db.onsite tag d,
        r.active = false → r.sign_out_date ≠ none) ∧
      (get_current_onsite_status (runScans tag (times.take k) st).2.db.onsite
          tag d).map (fun p => p.1) =
        (if k = 0 then none else some (decide (k % 2 = 1))) := by
  have main : ∀ k, k ≤ times.length →
      (runScans tag (times.take k) st).1 = List.replicate k true ∧
      AltInv tag name d k (times.getD (k - 1) 0)
        (runScans tag (times.take k) st).2 := by
    intro k
    induction k with
    | zero =>
        intro _
        refine ⟨rfl, ?_⟩
        show AltInv tag name d 0 (times.getD (0 - 1) 0) st
        constructor
        · exact hsign
        · exact hstaff
        · rw [if_pos rfl]; exact htap
        · exact hfresh
        · exact hnodup
        · rw [hempty]; rfl
        · rw [hempty]; exact List.chain'_nil
        · intro r hr; rw [hempty] at hr; cases hr
        · intro r hr; rw [hempty] at hr; cases hr
        · intro r hr; rw [hempty] at hr; cases hr
        · intro r hr; rw [hempty] at hr; cases hr
    | succ k ih =>
        intro hk1
        have hk : k < times.length := hk1
        rcases ih (le_of_lt hk) with ⟨hacc, inv⟩
        have htake : times.take (k + 1) = times.take k ++ [times.get ⟨k, hk⟩] := by
          rw [← List.take_concat_get' times k hk]
          rfl
        have hmem : times.get ⟨k, hk⟩ ∈ times := List.get_mem times k hk
        have hcool : k ≠ 0 → times.getD (k - 1) 0 + COOLDOWN_SECONDS ≤
            times.get ⟨k, hk⟩ := by
          intro hkne
          have hlt : k - 1 < times.length - 1 := by omega
          have hadj := List.chain'_iff_get.mp hgap (k - 1) hlt
          have hgd : times.getD (k - 1) 0 = times.get ⟨k - 1, by omega⟩ := by
            rw [List.getD_eq_getElem?_getD, List.getElem?_eq_getElem (by omega)]
            rfl
          have hidx : times.get ⟨k - 1 + 1, by omega⟩ = times.get ⟨k, hk⟩ := by
            congr 1
            exact Fin.ext (show k - 1 + 1 = k by omega)
          rw [hgd, ← hidx]
          exact hadj
        rcases alt_step tag name d k (times.getD (k - 1) 0)
            (runScans tag (times.take k) st).2 (times.get ⟨k, hk⟩) inv
            (hday _ hmem) (hwin _ hmem) hcool with ⟨hacc1, inv'⟩
        rw [htake, runScans_append_single]
        constructor
        · show (runScans tag (times.take k) st).1 ++ _ = _
          rw [hacc, hacc1, List.replicate_succ']
        · show AltInv tag name d (k + 1) (times.getD (k + 1 - 1) 0) _
          have hgd2 : times.getD (k + 1 - 1) 0 = times.get ⟨k, hk⟩ := by
            show times.getD k 0 = times.get ⟨k, hk⟩
            rw [List.getD_eq_getElem?_getD, List.getElem?_eq_getElem hk]
            rfl
          rw [hgd2]
          exact inv'
  intro k hk
  rcases main k hk with ⟨hacc, inv⟩
  refine ⟨hacc, inv.hlen, countP_active_le_one _ inv.hact, inv.hclosed, ?_⟩
  have hstat0 : get_current_onsite_status
      (runScans tag (times.take k) st).2.db.onsite tag d =
      (todaysRecords (runScans tag (times.take k) st).2.db.onsite tag
        d).getLast?.map (fun r => (r.active, r.onsite_id)) := by
    unfold get_current_onsite_status
    rw [latestIn_chain_getLast _ inv.hchain]
  rw [hstat0]
  by_cases hk0 : k = 0
  · have hnil : todaysRecords (runScans tag (times.take k) st).2.db.onsite tag d
        = [] := by
      apply List.length_eq_zero.mp
      rw [inv.hlen, hk0]
    rw [hnil, if_pos hk0]
    rfl
  · rw [if_neg hk0]
    have hne : todaysRecords (runScans tag (times.take k) st).2.db.onsite tag d
        ≠ [] := by
      intro h
      have hl := inv.hlen
      rw [h] at hl
      simp at hl
      omega
    rcases hgl : (todaysRecords (runScans tag (times.take k) st).2.db.onsite
        tag d).getLast? with _ | last
    · exact absurd (List.getLast?_eq_none_iff.mp hgl) hne
    rw [Option.map_some', Option.map_some', inv.hlast last hgl]

/-- Witness for C1: three scans of Alice's tag at 07:00, 07:10 and 07:20 are
all accepted and produce IN, OUT, IN — two records, at most one active, and
a derived status of IN after the third scan. -/
theorem scan_alternation_sequence_witness :
    (runScans "T1" [25200, 25800, 26400] demoState).1 = [true, true, true] ∧
    (todaysRecords (runScans "T1" [25200, 25800, 26400] demoState).2.db.onsite
      "T1" 0).length = 2 ∧
    (todaysRecords (runScans "T1" [25200, 25800, 26400] demoState).2.db.onsite
      "T1" 0).countP (fun r => r.active) ≤ 1 ∧
    (get_current_onsite_status (runScans "T1" [25200, 25800, 26400]
      demoState).2.db.onsite "T1" 0).map (fun p => p.1) = some true := by
  have h := scan_alternation_sequence demoState "T1" "Alice" 0
    [25200, 25800, 26400] (by decide) (by decide) (by decide)
    (by intro r hr; cases hr) (by decide) (by decide) (by decide) (by decide)
    (by norm_num [List.chain'_cons, COOLDOWN_SECONDS]) 3 (by decide)
  exact ⟨h.1, h.2.1, h.2.2.1, h.2.2.2.2⟩
